import Mathlib

/-!
Verification of the Plan Execution and Agent Invocation Engine.

Shallow embedding of src/app/executor.py and src/app/agent_caller.py.
The data model (models.py) and the registry lookup (registry.py) are not part
of the source tree; they are modelled from the spec (sections 3, 4.4 and 6)
and each such definition is marked in its doc comment.

Machine-level conventions of the embedding:
- Python str is Lean String; single-character str.split is implemented on
  character lists (split_char) to mirror Python semantics exactly.
- Python dict with int keys is an association list in insertion order
  (Ledger): updating an existing key keeps its position, a new key is
  appended, as CPython dicts do.
- The network is a transport oracle: each HTTP POST of a handshake either
  raises, or yields a reply with a status code and a body that either parses
  into an AgentResponse or fails to parse.
- uuid.uuid4 is an external supply of fresh strings, indexed by an
  invocation counter threaded through execution.
-/

namespace SupervisorSpec

/-- Modelled from the spec: models.py is not part of src. Section 7 gives the
ErrorModel fields: a taxonomy tag and a human readable diagnostic. -/
structure ErrorModel where
  type : String
  message : String
  deriving DecidableEq

/-- Modelled from the spec: models.py is not part of src. The output payload of
a successful response; only its scalar string representation is ever observed
(str(prior.output.result) in resolve_input), so result is modelled as the
string form of the payload. -/
structure OutputModel where
  result : String
  deriving DecidableEq

/-- Modelled from the spec: models.py is not part of src. Section 3 gives the
fields request_id, agent_name, status (success or error), output (present iff
success) and error (present iff status is error). -/
structure AgentResponse where
  request_id : String
  agent_name : String
  status : String
  output : Option OutputModel
  error : Option ErrorModel
  deriving DecidableEq

/-- Modelled from the spec: models.py is not part of src. Section 3 gives
identity, type (http or cli), endpoint (required iff type is http) and
timeout_ms. -/
structure AgentMetadata where
  name : String
  type : String
  endpoint : Option String
  timeout_ms : Nat
  deriving DecidableEq

/-- Modelled from the spec: models.py is not part of src. Section 3: step_id is
an integer key unique within a plan, agent a name reference, intent an
uninterpreted label, input_source either the literal user_query or a step
reference. -/
structure Step where
  step_id : Int
  agent : String
  intent : String
  input_source : String
  deriving DecidableEq

/-- Modelled from the spec: models.py is not part of src. A plan is an ordered
sequence of steps; execution order is sequence order. -/
structure Plan where
  steps : List Step
  deriving DecidableEq

/-- Modelled from the spec: models.py is not part of src. Audit record, one per
actual invocation. -/
structure UsedAgentEntry where
  name : String
  intent : String
  status : String
  deriving DecidableEq

/-- One entry of the file_uploads list built by the server: a Python dict read
with .get and a default, hence every field is optional here. -/
structure FileUpload where
  base64_data : Option String
  mime_type : Option String
  filename : Option String
  deriving DecidableEq

/-- The context mapping passed through execution (server.py builds it with
exactly these keys). -/
structure Context where
  user_id : String
  conversation_id : String
  timestamp : String
  file_uploads : List FileUpload
  deriving DecidableEq

/-- The metadata mapping built at agent_caller.py lines 40 to 51, in dict
insertion order: language and extra always, the three file fields only when a
non empty base64 payload is present. The extra field is an always empty dict
in the source. -/
structure InputMetadata where
  language : String
  extra : List (String × String)
  file_base64 : Option String
  mime_type : Option String
  filename : Option String
  deriving DecidableEq

/-- The input payload of a handshake. The source always builds the text plus
metadata shape; the custom constructor stands for a dict valued override such
as the trigger payload, so that the two shapes can be told apart. -/
inductive InputPayload where
  | textMeta (text : String) (metadata : InputMetadata)
  | custom (payload : List (String × String))
  deriving DecidableEq

/-- Modelled from the spec: models.py is not part of src. Section 3 gives the
handshake fields; input is the payload mapping, context is passed through. -/
structure AgentRequest where
  request_id : String
  agent_name : String
  intent : String
  input : InputPayload
  context : Context
  deriving DecidableEq

/-- Result of parsing a reply body into an AgentResponse: parsed, or a parse
failure with the exception text (resp.json() or the AgentResponse constructor
raising, both inside the try block). -/
inductive ParseResult where
  | ok (r : AgentResponse)
  | err (msg : String)
  deriving DecidableEq

/-- Outcome of one HTTP POST of a handshake: the call raises (connection
failure, timeout), or a reply arrives with a status code and a body. -/
inductive TransportResult where
  | raises (msg : String)
  | reply (status_code : Nat) (body : ParseResult)
  deriving DecidableEq

/-! ## Python dict with int keys (the step output ledger) -/

/-- The step output ledger: a Python dict from int step id to AgentResponse,
modelled as an association list in insertion order. -/
abbrev Ledger := List (Int × AgentResponse)

/-- Keys of the dict in insertion order (list(d.keys())). -/
def dkeys (d : Ledger) : List Int := d.map Prod.fst

/-- Python d[k] = v: an existing key keeps its position and gets the new
value, a new key is appended at the end. -/
def dinsert (k : Int) (v : AgentResponse) : Ledger → Ledger
  | [] => [(k, v)]
  | p :: rest => if p.1 = k then (k, v) :: rest else p :: dinsert k v rest

/-- Python d.get(k): the value at k if present, else none. -/
def dget (k : Int) : Ledger → Option AgentResponse
  | [] => none
  | p :: rest => if p.1 = k then some p.2 else dget k rest

/-- The synthetic id computation at executor.py line 76:
max(step_outputs.keys()) + 1 if step_outputs else 0. -/
def next_step_id (d : Ledger) : Int :=
  match dkeys d with
  | [] => 0
  | k :: ks => ks.foldl max k + 1

/-! ## Python string helpers -/

/-- Python s.split(sep) for a single character separator, on character lists:
"".split(sep) is [""], and every separator occurrence opens a new chunk. -/
def split_char (sep : Char) : List Char → List (List Char)
  | [] => [[]]
  | c :: rest =>
      let r := split_char sep rest
      if c = sep then [] :: r
      else
        match r with
        | [] => [[c]]
        | hd :: tl => (c :: hd) :: tl

/-- Python s.startswith(p), on character lists. -/
def starts_with_cs : List Char → List Char → Bool
  | [], _ => true
  | _ :: _, [] => false
  | p :: ps, c :: cs => p = c && starts_with_cs ps cs

/-- Python s.startswith(p). -/
def py_startswith (p s : String) : Bool := starts_with_cs p.toList s.toList

/-- Python str.strip(): drop leading and trailing whitespace. -/
def py_strip (cs : List Char) : List Char :=
  ((cs.dropWhile Char.isWhitespace).reverse.dropWhile Char.isWhitespace).reverse

/-- A non empty all digit character list. -/
def all_digits (cs : List Char) : Bool := !cs.isEmpty && cs.all Char.isDigit

/-- Numeric value of an all digit character list. -/
def digits_val (cs : List Char) : Int :=
  cs.foldl (fun a c => a * 10 + Int.ofNat (c.toNat - 48)) 0

/-- Python int(s) on a string: strip whitespace, optional sign, then a non
empty run of digits, else ValueError (none). Digit group underscores, which
Python also accepts, are not modelled; no claim depends on them. -/
def py_int_parse (cs : List Char) : Option Int :=
  let t := py_strip cs
  match t with
  | '+' :: rest => if all_digits rest then some (digits_val rest) else none
  | '-' :: rest => if all_digits rest then some (-(digits_val rest)) else none
  | _ => if all_digits t then some (digits_val t) else none

/-! ## agent_caller.py -/

/-- Python truthiness of the optional endpoint string (agent_caller.py line 74
tests agent_meta.endpoint, so None and the empty string are both falsy). -/
def endpoint_truthy : Option String → Bool
  | none => false
  | some e => e ≠ ""

/-- The metadata built from the file upload list (agent_caller.py lines 40 to
63): language en and empty extra always; when the list is non empty and the
first upload has a non empty base64 payload, that payload plus the mime type
(default application/octet-stream) and filename (default uploaded_file) are
added. Logging calls are effect free and dropped. -/
def metadata_for_uploads : List FileUpload → InputMetadata
  | [] => ⟨"en", [], none, none, none⟩
  | first_file :: _ =>
      let base64_data := first_file.base64_data.getD ""
      if base64_data ≠ "" then
        ⟨"en", [],
          some base64_data,
          some (first_file.mime_type.getD "application/octet-stream"),
          some (first_file.filename.getD "uploaded_file")⟩
      else
        ⟨"en", [], none, none, none⟩

/-- The metadata mapping built at agent_caller.py lines 40 to 63, from the
file_uploads entry of the context (context.get at line 41). -/
def build_metadata (context : Context) : InputMetadata :=
  metadata_for_uploads context.file_uploads

/-- The handshake constructed at agent_caller.py lines 65 to 71. The
custom_input parameter is accepted by call_agent (line 26) and documented as
replacing the entire input payload, but the source never reads it: the input
is always the text plus metadata shape. -/
def build_handshake (agent_meta : AgentMetadata) (intent : String) (text : String)
    (context : Context) (custom_input : Option (List (String × String)))
    (request_id : String) : AgentRequest :=
  ⟨request_id, agent_meta.name, intent,
    InputPayload.textMeta text (build_metadata context),
    context⟩

/-- The body of the try block at agent_caller.py lines 75 to 95, as a
function of the transport outcome: a raised exception is caught and becomes
network_error; a reply with status code other than 200 becomes http_error
carrying the code and the endpoint; a reply with status code 200 whose body
parses is returned as is, and a body that fails to parse (an exception from
resp.json() or the AgentResponse constructor, still inside the try) becomes
network_error. -/
def http_transport_result (agent_meta : AgentMetadata) (request_id : String) :
    TransportResult → AgentResponse
  | TransportResult.raises msg =>
      ⟨request_id, agent_meta.name, "error", none, some ⟨"network_error", msg⟩⟩
  | TransportResult.reply status_code body =>
      if status_code ≠ 200 then
        ⟨request_id, agent_meta.name, "error", none,
          some ⟨"http_error",
            "HTTP " ++ toString status_code ++ " calling " ++
              agent_meta.endpoint.getD ""⟩⟩
      else
        match body with
        | ParseResult.ok parsed => parsed
        | ParseResult.err msg =>
            ⟨request_id, agent_meta.name, "error", none,
              some ⟨"network_error", msg⟩⟩

/-- call_agent (agent_caller.py lines 21 to 116). The transport argument is
the network: it maps the posted handshake to what the HTTP POST does. The
httpx_available flag models whether the httpx import succeeded. -/
def call_agent (agent_meta : AgentMetadata) (intent : String) (text : String)
    (context : Context) (custom_input : Option (List (String × String)))
    (httpx_available : Bool) (transport : AgentRequest → TransportResult)
    (request_id : String) : AgentResponse :=
  let handshake := build_handshake agent_meta intent text context custom_input request_id
  if agent_meta.type = "http" ∧ endpoint_truthy agent_meta.endpoint = true ∧
      httpx_available = true then
    http_transport_result agent_meta request_id (transport handshake)
  else if agent_meta.type = "http" ∧ httpx_available = false then
    ⟨request_id, agent_meta.name, "error", none,
      some ⟨"config_error", "httpx not installed for HTTP agent calls"⟩⟩
  else if agent_meta.type = "cli" then
    ⟨request_id, agent_meta.name, "error", none,
      some ⟨"not_implemented", "CLI agent execution is not implemented"⟩⟩
  else
    ⟨request_id, agent_meta.name, "error", none,
      some ⟨"config_error", "Agent endpoint/command not configured"⟩⟩

/-! ## registry lookup -/

/-- Modelled from the spec: registry.py is not part of src. Section 6
describes find_agent_by_name(name) as returning the AgentMetadata or a
not-found value, and section 4.4 step 1 says a missing name makes the
invocation proceed with a metadata value that signals not found and resolves
to a config_error response. The not-found value is therefore a sentinel
metadata whose type is the string not_found, which call_agent maps to
config_error through its final branch. -/
def find_agent_by_name (name : String) (registry : List AgentMetadata) : AgentMetadata :=
  match registry.find? (fun a => a.name == name) with
  | some a => a
  | none => ⟨name, "not_found", none, 0⟩

/-! ## executor.py -/

/-- resolve_input (executor.py lines 20 to 35): the literal user_query is the
query itself; a source starting with step: is split on colons, the piece after
the first colon is cut at its first dot and parsed as an int; when that id is
in the ledger and the referenced response has an output, the string form of
its result is returned; every other path falls back to the user query. -/
def resolve_input (input_source : String) (user_query : String)
    (step_outputs : Ledger) : String :=
  if input_source = "user_query" then user_query
  else if py_startswith "step:" input_source = true then
    let parts := split_char ':' input_source.toList
    if parts.length ≥ 2 then
      let step_id_str := ((split_char '.' ((parts.get? 1).getD [])).get? 0).getD []
      match py_int_parse step_id_str with
      | some step_id =>
          match dget step_id step_outputs with
          | some prior =>
              match prior.output with
              | some o => o.result
              | none => user_query
          | none => user_query
      | none => user_query
    else user_query
  else user_query

/-- State threaded through the step loop of execute_plan: the ledger, the
usage log, and the invocation counter that indexes the oracle for fresh
request ids and transport outcomes. -/
structure ExecState where
  step_outputs : Ledger
  used_agents : List UsedAgentEntry
  counter : Nat

/-- The response of one normal step invocation (executor.py lines 52 to 55):
look the agent up by name, resolve the input text against the current ledger,
and invoke the agent with the shared context and no input override. -/
def step_response (query : String) (registry : List AgentMetadata) (context : Context)
    (httpx_available : Bool) (oracle : Nat → AgentRequest → TransportResult)
    (fresh : Nat → String) (st : ExecState) (step : Step) : AgentResponse :=
  call_agent (find_agent_by_name step.agent registry) step.intent
    (resolve_input step.input_source query st.step_outputs) context none
    httpx_available (oracle st.counter) (fresh st.counter)

/-- The state after the bookkeeping of one normal step (executor.py lines 56
to 59): record the response at the step id and append a usage entry carrying
the looked up agent name, the intent and the response status. -/
def post_step_state (query : String) (registry : List AgentMetadata) (context : Context)
    (httpx_available : Bool) (oracle : Nat → AgentRequest → TransportResult)
    (fresh : Nat → String) (st : ExecState) (step : Step) : ExecState :=
  ⟨dinsert step.step_id
      (step_response query registry context httpx_available oracle fresh st step)
      st.step_outputs,
    st.used_agents ++ [⟨(find_agent_by_name step.agent registry).name, step.intent,
      (step_response query registry context httpx_available oracle fresh st step).status⟩],
    st.counter + 1⟩

/-- The auto chain block (executor.py lines 65 to 90): look up
task_dependency_agent, invoke it with empty text and the trigger override,
and record the response under max(ledger keys) + 1 (0 if the ledger were
empty) together with a usage entry. In this embedding call_agent and
find_agent_by_name are total functions, so the except KeyError and except
Exception handlers at lines 85 to 90 have no code path that reaches them. -/
def chain_extend (registry : List AgentMetadata) (context : Context)
    (httpx_available : Bool) (oracle : Nat → AgentRequest → TransportResult)
    (fresh : Nat → String) (st1 : ExecState) : ExecState :=
  let tda_meta := find_agent_by_name "task_dependency_agent" registry
  let tda_response := call_agent tda_meta "task.resolve_dependencies" "" context
      (some [("trigger", "database_update")]) httpx_available
      (oracle st1.counter) (fresh st1.counter)
  let next_id := next_step_id st1.step_outputs
  ⟨dinsert next_id tda_response st1.step_outputs,
    st1.used_agents ++ [⟨tda_meta.name, "task.resolve_dependencies", tda_response.status⟩],
    st1.counter + 1⟩

/-- One iteration of the loop body of execute_plan (executor.py lines 51 to
90): the normal invocation and bookkeeping, then the auto chain block exactly
when the step agent is KnowledgeBaseBuilderAgent, the response status is
success and the intent is create_task (line 62, in source order). -/
def exec_step (query : String) (registry : List AgentMetadata) (context : Context)
    (httpx_available : Bool) (oracle : Nat → AgentRequest → TransportResult)
    (fresh : Nat → String) (st : ExecState) (step : Step) : ExecState :=
  let response := step_response query registry context httpx_available oracle fresh st step
  let st1 := post_step_state query registry context httpx_available oracle fresh st step
  if step.agent = "KnowledgeBaseBuilderAgent" ∧ response.status = "success" ∧
      step.intent = "create_task" then
    chain_extend registry context httpx_available oracle fresh st1
  else st1

/-- execute_plan (executor.py lines 41 to 92): fold the loop body over the
plan steps in order, starting from an empty ledger and usage log, and return
the pair. -/
def execute_plan (query : String) (plan : Plan) (registry : List AgentMetadata)
    (context : Context) (httpx_available : Bool)
    (oracle : Nat → AgentRequest → TransportResult) (fresh : Nat → String) :
    Ledger × List UsedAgentEntry :=
  let final := plan.steps.foldl
    (exec_step query registry context httpx_available oracle fresh) ⟨[], [], 0⟩
  (final.step_outputs, final.used_agents)

/-! ## Concrete fixtures used by witnesses and counterexamples -/

/-- A context with no file uploads, as the server builds for a plain query. -/
def ctx0 : Context := ⟨"anonymous", "conv", "2026-10-12T00:00:00+00:00", []⟩

/-- Registry entry for the knowledge base builder agent. -/
def kb_meta : AgentMetadata :=
  ⟨"KnowledgeBaseBuilderAgent", "http", some "http://kb", 1000⟩

/-- Registry entry for the dependency resolver agent. -/
def tda_meta0 : AgentMetadata :=
  ⟨"task_dependency_agent", "http", some "http://tda", 1000⟩

/-- Registry entry for a generic worker agent. -/
def b_meta : AgentMetadata := ⟨"AgentB", "http", some "http://b", 1000⟩

/-- A successful remote reply whose output records the invocation index, so
that distinct invocations are distinguishable in the ledger. -/
def success_resp (n : Nat) : AgentResponse :=
  ⟨"x", "a", "success", some ⟨toString n⟩, none⟩

/-- A transport on which every call succeeds with HTTP 200 and a well formed
body carrying the invocation index. -/
def oracle_succ : Nat → AgentRequest → TransportResult :=
  fun n _ => TransportResult.reply 200 (ParseResult.ok (success_resp n))

/-- A fresh request id supply. -/
def fresh0 : Nat → String := fun n => "rid" ++ toString n

/-- A well formed remote reply used to probe the 2xx handling. -/
def good_resp : AgentResponse := ⟨"r1", "worker", "success", some ⟨"out"⟩, none⟩

/-- Two step plan whose first step triggers the auto chain: the synthetic id
of the fired chain (2) collides with the id of the second plan step. -/
def plan_c4 : Plan :=
  ⟨[⟨1, "KnowledgeBaseBuilderAgent", "create_task", "user_query"⟩,
    ⟨2, "AgentB", "do_work", "user_query"⟩]⟩

/-- One step plan that triggers the auto chain. -/
def plan_c8 : Plan :=
  ⟨[⟨1, "KnowledgeBaseBuilderAgent", "create_task", "user_query"⟩]⟩

/-- A context holding exactly one upload whose base64 payload is empty. -/
def empty_upload_ctx : Context :=
  ⟨"u", "c", "t", [⟨some "", some "application/pdf", some "doc.pdf"⟩]⟩

/-- A context holding exactly one upload with a payload and no mime type. -/
def one_upload_ctx : Context :=
  ⟨"u", "c", "t", [⟨some "QUJD", none, some "a.txt"⟩]⟩

/-- A ledger in which step 2 succeeded with result 42, the resolver example
from the spec. -/
def ledger42 : Ledger := [(2, ⟨"x", "a", "success", some ⟨"42"⟩, none⟩)]

/-- A step referencing an agent name that no registry below contains. -/
def ghost_step : Step := ⟨7, "ghost", "do", "user_query"⟩

/-- Two step plan of generic workers. -/
def plan_two : Plan := ⟨[⟨1, "A", "i", "user_query"⟩, ⟨2, "B", "j", "user_query"⟩]⟩

/-- The canonical trigger step of the auto chain. -/
def kb_step : Step := ⟨1, "KnowledgeBaseBuilderAgent", "create_task", "user_query"⟩

/-! ## Dictionary lemmas -/

theorem dget_dinsert_self (k : Int) (v : AgentResponse) (d : Ledger) :
    dget k (dinsert k v d) = some v := by
  induction d with
  | nil => simp [dinsert, dget]
  | cons p rest ih =>
      by_cases hp : p.1 = k
      · simp [dinsert, dget, hp]
      · simp [dinsert, dget, hp, ih]

theorem dkeys_cons (p : Int × AgentResponse) (rest : Ledger) :
    dkeys (p :: rest) = p.1 :: dkeys rest := rfl

theorem dget_dinsert_ne (a k : Int) (v : AgentResponse) (d : Ledger) (h : a ≠ k) :
    dget a (dinsert k v d) = dget a d := by
  have hka : ¬ (k = a) := fun hh => h hh.symm
  induction d with
  | nil => simp [dinsert, dget, hka]
  | cons p rest ih =>
      by_cases hp : p.1 = k
      · simp [dinsert, dget, hp, hka]
      · simp only [dinsert, hp, if_false]
        by_cases ha : p.1 = a
        · simp [dget, ha]
        · simp [dget, ha, ih]

theorem dkeys_dinsert_mem (k : Int) (v : AgentResponse) (d : Ledger) :
    k ∈ dkeys d → dkeys (dinsert k v d) = dkeys d := by
  induction d with
  | nil => intro h; simp [dkeys] at h
  | cons p rest ih =>
      intro h
      by_cases hp : p.1 = k
      · simp [dinsert, dkeys, hp]
      · have hmem : k ∈ dkeys rest := by
          rw [dkeys_cons] at h
          rcases List.mem_cons.mp h with h | h
          · exact absurd h.symm hp
          · exact h
        simp only [dinsert, hp, if_false, dkeys_cons, ih hmem]

theorem dinsert_not_mem_append (k : Int) (v : AgentResponse) (d : Ledger) :
    k ∉ dkeys d → dinsert k v d = d ++ [(k, v)] := by
  induction d with
  | nil => intro _; simp [dinsert]
  | cons p rest ih =>
      intro h
      rw [dkeys_cons] at h
      have hp : p.1 ≠ k := by
        intro hh
        exact h (List.mem_cons.mpr (Or.inl hh.symm))
      have hrest : k ∉ dkeys rest := by
        intro hh
        exact h (List.mem_cons.mpr (Or.inr hh))
      simp [dinsert, hp, ih hrest]

theorem dkeys_dinsert_not_mem (k : Int) (v : AgentResponse) (d : Ledger)
    (h : k ∉ dkeys d) : dkeys (dinsert k v d) = dkeys d ++ [k] := by
  rw [dinsert_not_mem_append k v d h]
  simp [dkeys]

theorem dget_dinsert_old_key (a k : Int) (v : AgentResponse) (d : Ledger)
    (h : a ∈ dkeys d) (hk : k ∉ dkeys d) :
    dget a (dinsert k v d) = dget a d := by
  have : a ≠ k := fun hh => hk (hh ▸ h)
  exact dget_dinsert_ne a k v d this

theorem mem_dkeys_dinsert (a k : Int) (v : AgentResponse) (d : Ledger)
    (h : a ∈ dkeys d) : a ∈ dkeys (dinsert k v d) := by
  by_cases hk : k ∈ dkeys d
  · rw [dkeys_dinsert_mem k v d hk]; exact h
  · rw [dkeys_dinsert_not_mem k v d hk]; exact List.mem_append_left _ h

theorem mem_dkeys_dinsert_self (k : Int) (v : AgentResponse) (d : Ledger) :
    k ∈ dkeys (dinsert k v d) := by
  by_cases hk : k ∈ dkeys d
  · rw [dkeys_dinsert_mem k v d hk]; exact hk
  · rw [dkeys_dinsert_not_mem k v d hk]; simp

theorem dget_some_of_mem (k : Int) (d : Ledger) :
    k ∈ dkeys d → ∃ r, dget k d = some r := by
  induction d with
  | nil => intro h; simp [dkeys] at h
  | cons p rest ih =>
      intro h
      by_cases hp : p.1 = k
      · exact ⟨p.2, by simp [dget, hp]⟩
      · have hmem : k ∈ dkeys rest := by
          rw [dkeys_cons] at h
          rcases List.mem_cons.mp h with h | h
          · exact absurd h.symm hp
          · exact h
        rcases ih hmem with ⟨r, hr⟩
        exact ⟨r, by simp [dget, hp, hr]⟩

theorem dinsert_ne_nil (k : Int) (v : AgentResponse) (d : Ledger) :
    dinsert k v d ≠ [] := by
  cases d with
  | nil => simp [dinsert]
  | cons p rest =>
      by_cases hp : p.1 = k <;> simp [dinsert, hp]

theorem length_dkeys (d : Ledger) : (dkeys d).length = d.length := by
  simp [dkeys]

theorem length_dinsert_not_mem (k : Int) (v : AgentResponse) (d : Ledger)
    (h : k ∉ dkeys d) : (dinsert k v d).length = d.length + 1 := by
  rw [dinsert_not_mem_append k v d h]
  simp

/-! ## Maximum over the key list -/

theorem le_foldl_max (a : Int) (l : List Int) : a ≤ l.foldl max a := by
  induction l generalizing a with
  | nil => exact le_refl a
  | cons b t ih => exact le_trans (le_max_left a b) (ih (max a b))

theorem mem_le_foldl_max (x : Int) (l : List Int) :
    ∀ a, x ∈ l → x ≤ l.foldl max a := by
  induction l with
  | nil => intro a h; simp at h
  | cons b t ih =>
      intro a h
      rcases List.mem_cons.mp h with h | h
      · subst h
        exact le_trans (le_max_right a x) (le_foldl_max (max a x) t)
      · exact ih (max a b) h

theorem lt_next_step_id_of_mem (d : Ledger) (k : Int) (hk : k ∈ dkeys d) :
    k < next_step_id d := by
  cases hd : dkeys d with
  | nil => rw [hd] at hk; simp at hk
  | cons k0 ks =>
      rw [hd] at hk
      have hle : k ≤ ks.foldl max k0 := by
        rcases List.mem_cons.mp hk with h | h
        · subst h; exact le_foldl_max k ks
        · exact mem_le_foldl_max k ks k0 h
      simp only [next_step_id, hd]
      omega

theorem next_step_id_not_mem (d : Ledger) : next_step_id d ∉ dkeys d := by
  intro h
  exact absurd rfl (ne_of_gt (lt_next_step_id_of_mem d _ h)).symm

/-! ## Registry and invoker lemmas -/

theorem find_agent_not_found (name : String) (registry : List AgentMetadata)
    (h : ∀ a ∈ registry, a.name ≠ name) :
    find_agent_by_name name registry = ⟨name, "not_found", none, 0⟩ := by
  unfold find_agent_by_name
  have hnone : registry.find? (fun a => a.name == name) = none := by
    apply List.find?_eq_none.mpr
    intro a ha
    simp [h a ha]
  rw [hnone]

theorem call_agent_not_found_sentinel (name intent text : String) (context : Context)
    (custom_input : Option (List (String × String))) (httpx_available : Bool)
    (transport : AgentRequest → TransportResult) (request_id : String) :
    call_agent ⟨name, "not_found", none, 0⟩ intent text context custom_input
        httpx_available transport request_id =
      ⟨request_id, name, "error", none,
        some ⟨"config_error", "Agent endpoint/command not configured"⟩⟩ := by
  simp [call_agent, endpoint_truthy]

/-! ## Step and fold lemmas -/

theorem exec_step_eq_chain (query : String) (registry : List AgentMetadata)
    (context : Context) (hx : Bool) (oracle : Nat → AgentRequest → TransportResult)
    (fresh : Nat → String) (st : ExecState) (step : Step)
    (h : step.agent = "KnowledgeBaseBuilderAgent" ∧
      (step_response query registry context hx oracle fresh st step).status = "success" ∧
      step.intent = "create_task") :
    exec_step query registry context hx oracle fresh st step =
      chain_extend registry context hx oracle fresh
        (post_step_state query registry context hx oracle fresh st step) := by
  simp only [exec_step]
  rw [if_pos h]

theorem exec_step_eq_plain (query : String) (registry : List AgentMetadata)
    (context : Context) (hx : Bool) (oracle : Nat → AgentRequest → TransportResult)
    (fresh : Nat → String) (st : ExecState) (step : Step)
    (h : ¬ (step.agent = "KnowledgeBaseBuilderAgent" ∧
      (step_response query registry context hx oracle fresh st step).status = "success" ∧
      step.intent = "create_task")) :
    exec_step query registry context hx oracle fresh st step =
      post_step_state query registry context hx oracle fresh st step := by
  simp only [exec_step]
  rw [if_neg h]

theorem chain_extend_outputs (registry : List AgentMetadata) (context : Context)
    (hx : Bool) (oracle : Nat → AgentRequest → TransportResult)
    (fresh : Nat → String) (st1 : ExecState) :
    (chain_extend registry context hx oracle fresh st1).step_outputs =
      st1.step_outputs ++
        [(next_step_id st1.step_outputs,
          call_agent (find_agent_by_name "task_dependency_agent" registry)
            "task.resolve_dependencies" "" context
            (some [("trigger", "database_update")]) hx
            (oracle st1.counter) (fresh st1.counter))] := by
  simp only [chain_extend]
  exact dinsert_not_mem_append _ _ _ (next_step_id_not_mem _)

theorem chain_extend_keys (registry : List AgentMetadata) (context : Context)
    (hx : Bool) (oracle : Nat → AgentRequest → TransportResult)
    (fresh : Nat → String) (st1 : ExecState) :
    dkeys (chain_extend registry context hx oracle fresh st1).step_outputs =
      dkeys st1.step_outputs ++ [next_step_id st1.step_outputs] := by
  rw [chain_extend_outputs]
  simp [dkeys]

theorem exec_step_keys_mono (query : String) (registry : List AgentMetadata)
    (context : Context) (hx : Bool) (oracle : Nat → AgentRequest → TransportResult)
    (fresh : Nat → String) (st : ExecState) (step : Step) (k : Int)
    (h : k ∈ dkeys st.step_outputs) :
    k ∈ dkeys (exec_step query registry context hx oracle fresh st step).step_outputs := by
  have hpost : k ∈
      dkeys (post_step_state query registry context hx oracle fresh st step).step_outputs :=
    mem_dkeys_dinsert _ _ _ _ h
  by_cases hc : step.agent = "KnowledgeBaseBuilderAgent" ∧
      (step_response query registry context hx oracle fresh st step).status = "success" ∧
      step.intent = "create_task"
  · rw [exec_step_eq_chain query registry context hx oracle fresh st step hc,
      chain_extend_keys]
    exact List.mem_append_left _ hpost
  · rw [exec_step_eq_plain query registry context hx oracle fresh st step hc]
    exact hpost

theorem exec_step_step_id_mem (query : String) (registry : List AgentMetadata)
    (context : Context) (hx : Bool) (oracle : Nat → AgentRequest → TransportResult)
    (fresh : Nat → String) (st : ExecState) (step : Step) :
    step.step_id ∈
      dkeys (exec_step query registry context hx oracle fresh st step).step_outputs := by
  have hpost : step.step_id ∈
      dkeys (post_step_state query registry context hx oracle fresh st step).step_outputs :=
    mem_dkeys_dinsert_self _ _ _
  by_cases hc : step.agent = "KnowledgeBaseBuilderAgent" ∧
      (step_response query registry context hx oracle fresh st step).status = "success" ∧
      step.intent = "create_task"
  · rw [exec_step_eq_chain query registry context hx oracle fresh st step hc,
      chain_extend_keys]
    exact List.mem_append_left _ hpost
  · rw [exec_step_eq_plain query registry context hx oracle fresh st step hc]
    exact hpost

theorem exec_step_used_length (query : String) (registry : List AgentMetadata)
    (context : Context) (hx : Bool) (oracle : Nat → AgentRequest → TransportResult)
    (fresh : Nat → String) (st : ExecState) (step : Step) :
    st.used_agents.length + 1 ≤
      (exec_step query registry context hx oracle fresh st step).used_agents.length := by
  by_cases hc : step.agent = "KnowledgeBaseBuilderAgent" ∧
      (step_response query registry context hx oracle fresh st step).status = "success" ∧
      step.intent = "create_task"
  · rw [exec_step_eq_chain query registry context hx oracle fresh st step hc]
    simp [chain_extend, post_step_state]
  · rw [exec_step_eq_plain query registry context hx oracle fresh st step hc]
    simp [post_step_state]

theorem foldl_keys_mono (query : String) (registry : List AgentMetadata)
    (context : Context) (hx : Bool) (oracle : Nat → AgentRequest → TransportResult)
    (fresh : Nat → String) :
    ∀ (steps : List Step) (st : ExecState) (k : Int), k ∈ dkeys st.step_outputs →
      k ∈ dkeys ((steps.foldl (exec_step query registry context hx oracle fresh)
        st).step_outputs) := by
  intro steps
  induction steps with
  | nil => intro st k h; exact h
  | cons s ts ih =>
      intro st k h
      exact ih _ k (exec_step_keys_mono query registry context hx oracle fresh st s k h)

theorem foldl_step_ids_mem (query : String) (registry : List AgentMetadata)
    (context : Context) (hx : Bool) (oracle : Nat → AgentRequest → TransportResult)
    (fresh : Nat → String) :
    ∀ (steps : List Step) (st : ExecState) (s : Step), s ∈ steps →
      s.step_id ∈ dkeys ((steps.foldl (exec_step query registry context hx oracle fresh)
        st).step_outputs) := by
  intro steps
  induction steps with
  | nil => intro st s h; simp at h
  | cons t ts ih =>
      intro st s h
      rcases List.mem_cons.mp h with h | h
      · subst h
        exact foldl_keys_mono query registry context hx oracle fresh ts _ s.step_id
          (exec_step_step_id_mem query registry context hx oracle fresh st s)
      · exact ih _ s h

theorem foldl_used_length (query : String) (registry : List AgentMetadata)
    (context : Context) (hx : Bool) (oracle : Nat → AgentRequest → TransportResult)
    (fresh : Nat → String) :
    ∀ (steps : List Step) (st : ExecState),
      st.used_agents.length + steps.length ≤
        ((steps.foldl (exec_step query registry context hx oracle fresh)
          st).used_agents).length := by
  intro steps
  induction steps with
  | nil => intro st; simp
  | cons s ts ih =>
      intro st
      have h1 := exec_step_used_length query registry context hx oracle fresh st s
      have h2 := ih (exec_step query registry context hx oracle fresh st s)
      simp only [List.foldl_cons, List.length_cons]
      omega

/-! ## Claim C3 -/

/-- C3: call_agent never lets an exception escape. It is a total function of
its inputs and of the transport outcome, and on every failure path (transport
fault or timeout, non 200 reply, malformed reply, missing transport,
unsupported type, missing endpoint) it returns a structured AgentResponse
with status error and a populated error field. The only non error outcome is
a reply with status code 200 whose body parsed, returned as is. -/
theorem c3_call_agent_total_error_or_parsed (agent_meta : AgentMetadata)
    (intent text : String) (context : Context)
    (custom_input : Option (List (String × String))) (httpx_available : Bool)
    (transport : AgentRequest → TransportResult) (request_id : String) :
    ((call_agent agent_meta intent text context custom_input httpx_available
        transport request_id).status = "error" ∧
      ∃ e, (call_agent agent_meta intent text context custom_input httpx_available
        transport request_id).error = some e) ∨
    (∃ body,
      transport (build_handshake agent_meta intent text context custom_input request_id) =
        TransportResult.reply 200 (ParseResult.ok body) ∧
      call_agent agent_meta intent text context custom_input httpx_available
        transport request_id = body) := by
  by_cases h1 : agent_meta.type = "http" ∧ endpoint_truthy agent_meta.endpoint = true ∧
      httpx_available = true
  · simp only [call_agent]
    rw [if_pos h1]
    cases htr : transport (build_handshake agent_meta intent text context custom_input
        request_id) with
    | raises msg => exact Or.inl ⟨rfl, ⟨_, rfl⟩⟩
    | reply code body =>
        simp only [http_transport_result]
        by_cases hcode : code ≠ 200
        · rw [if_pos hcode]
          exact Or.inl ⟨rfl, ⟨_, rfl⟩⟩
        · rw [if_neg hcode]
          push_neg at hcode
          subst hcode
          cases body with
          | ok parsed => exact Or.inr ⟨parsed, rfl, rfl⟩
          | err msg => exact Or.inl ⟨rfl, ⟨_, rfl⟩⟩
  · simp only [call_agent]
    rw [if_neg h1]
    by_cases h2 : agent_meta.type = "http" ∧ httpx_available = false
    · rw [if_pos h2]
      exact Or.inl ⟨rfl, ⟨_, rfl⟩⟩
    · rw [if_neg h2]
      by_cases h3 : agent_meta.type = "cli"
      · rw [if_pos h3]
        exact Or.inl ⟨rfl, ⟨_, rfl⟩⟩
      · rw [if_neg h3]
        exact Or.inl ⟨rfl, ⟨_, rfl⟩⟩

/-! ## Claim C5 -/

/-- C5 counterexample: a well formed reply with the 2xx status code 201 is
not returned as is. The source accepts exactly 200 (agent_caller.py line 78),
so HTTP 201 with a well formed success body yields http_error. -/
theorem c5_counterexample :
    call_agent ⟨"worker", "http", some "http://w", 1000⟩ "do" "t" ctx0 none true
        (fun _ => TransportResult.reply 201 (ParseResult.ok good_resp)) "rid" =
      ⟨"rid", "worker", "error", none,
        some ⟨"http_error", "HTTP 201 calling http://w"⟩⟩ ∧
    good_resp.status = "success" := by
  constructor
  · rfl
  · rfl

/-- C5 amended: for an agent of type http with a configured endpoint and a
working transport, every reply whose status code differs from 200 (rather
than every non 2xx reply) yields an AgentResponse with status error and
error type http_error whose message carries the status code and the
endpoint, and every well formed reply with status code exactly 200 is parsed
into an AgentResponse and returned as is; in particular HTTP 500 yields
http_error and does not raise. -/
theorem c5_amended (agent_meta : AgentMetadata) (intent text : String)
    (context : Context) (custom_input : Option (List (String × String)))
    (transport : AgentRequest → TransportResult) (request_id : String) (e : String)
    (htype : agent_meta.type = "http") (hend : agent_meta.endpoint = some e)
    (hne : e ≠ "") (code : Nat) (body : ParseResult)
    (htr : transport (build_handshake agent_meta intent text context custom_input
        request_id) = TransportResult.reply code body) :
    (code ≠ 200 →
      call_agent agent_meta intent text context custom_input true transport request_id =
        ⟨request_id, agent_meta.name, "error", none,
          some ⟨"http_error", "HTTP " ++ toString code ++ " calling " ++ e⟩⟩) ∧
    (∀ r, code = 200 → body = ParseResult.ok r →
      call_agent agent_meta intent text context custom_input true transport request_id
        = r) := by
  have h1 : agent_meta.type = "http" ∧ endpoint_truthy agent_meta.endpoint = true ∧
      True := by
    refine ⟨htype, ?_, trivial⟩
    rw [hend]
    simp [endpoint_truthy, hne]
  constructor
  · intro hcode
    simp only [call_agent]
    rw [if_pos h1, htr]
    simp only [http_transport_result]
    rw [if_pos hcode, hend]
    rfl
  · intro r hcode hbody
    subst hcode
    subst hbody
    simp only [call_agent]
    rw [if_pos h1, htr]
    simp only [http_transport_result]
    rw [if_neg (by omega : ¬ (200 : Nat) ≠ 200)]

/-- Witness for c5_amended: HTTP 500 at a concrete http agent yields the
http_error response carrying the code and the endpoint. -/
theorem c5_amended_witness :
    (⟨"worker", "http", some "http://w", 1000⟩ : AgentMetadata).type = "http" ∧
    call_agent ⟨"worker", "http", some "http://w", 1000⟩ "do" "t" ctx0 none true
        (fun _ => TransportResult.reply 500 (ParseResult.ok good_resp)) "rid" =
      ⟨"rid", "worker", "error", none,
        some ⟨"http_error", "HTTP 500 calling http://w"⟩⟩ :=
  ⟨rfl,
    (c5_amended ⟨"worker", "http", some "http://w", 1000⟩ "do" "t" ctx0 none
      (fun _ => TransportResult.reply 500 (ParseResult.ok good_resp)) "rid" "http://w"
      rfl rfl (by decide) 500 (ParseResult.ok good_resp) rfl).1 (by decide)⟩

/-! ## Claim C2 -/

/-- C2: evaluation at the failing input. The executor passes
custom_input = trigger database_update for the chained call (executor.py
line 73), and the call_agent docstring says a provided custom_input replaces
the entire input payload; but call_agent never reads custom_input, so the
dispatched handshake keeps the default shape with empty text and standard
metadata, and custom_input has no effect on the handshake at all. -/
theorem c2_custom_input_ignored :
    (build_handshake tda_meta0 "task.resolve_dependencies" "" ctx0
        (some [("trigger", "database_update")]) "rid" =
      ⟨"rid", "task_dependency_agent", "task.resolve_dependencies",
        InputPayload.textMeta "" ⟨"en", [], none, none, none⟩, ctx0⟩) ∧
    ((build_handshake tda_meta0 "task.resolve_dependencies" "" ctx0
        (some [("trigger", "database_update")]) "rid").input ≠
      InputPayload.custom [("trigger", "database_update")]) ∧
    (∀ (agent_meta : AgentMetadata) (intent text : String) (context : Context)
        (ci ci2 : Option (List (String × String))) (request_id : String),
      build_handshake agent_meta intent text context ci request_id =
        build_handshake agent_meta intent text context ci2 request_id) := by
  refine ⟨rfl, by decide, ?_⟩
  intro agent_meta intent text context ci ci2 request_id
  rfl

/-! ## Claim C8 -/

/-- C8: evaluation at the failing input. The dependency resolver is absent
from the registry and the trigger fires. The chain is not skipped: the
lookup returns the not found sentinel rather than raising KeyError, the
chained call returns config_error, and the run records one extra ledger
entry and one extra usage entry. The final ledger and usage log are
therefore not identical to the no chain case, contradicting the skip
comment at executor.py line 86 and the spec. -/
theorem c8_chain_not_skipped :
    execute_plan "q" plan_c8 [kb_meta] ctx0 true oracle_succ fresh0 =
      ([(1, success_resp 0),
        (2, ⟨"rid1", "task_dependency_agent", "error", none,
          some ⟨"config_error", "Agent endpoint/command not configured"⟩⟩)],
       [⟨"KnowledgeBaseBuilderAgent", "create_task", "success"⟩,
        ⟨"task_dependency_agent", "task.resolve_dependencies", "error"⟩]) := by
  rfl

/-! ## Claim C9 -/

/-- C9 counterexample: exactly one upload is present but its base64 payload
is the empty string. The claim says its payload, mime type and filename are
embedded into the metadata, yet the source embeds none of them: the guard at
agent_caller.py line 48 requires a non empty payload. -/
theorem c9_counterexample :
    empty_upload_ctx.file_uploads.length = 1 ∧
    build_metadata empty_upload_ctx = ⟨"en", [], none, none, none⟩ := by
  constructor
  · rfl
  · rfl

/-- C9 amended: every handshake input metadata carries language en; when the
upload list is non empty only the first upload is honored, and its base64
payload, mime type (defaulting to application/octet-stream) and filename
(defaulting to uploaded_file) are embedded exactly when the payload is
present and non empty; an upload whose payload is missing or empty embeds
nothing. -/
theorem c9_amended :
    (∀ context : Context, (build_metadata context).language = "en") ∧
    (∀ (context : Context) (f : FileUpload) (rest : List FileUpload),
      context.file_uploads = f :: rest →
      (∀ b, f.base64_data = some b → b ≠ "" →
        build_metadata context =
          ⟨"en", [], some b, some (f.mime_type.getD "application/octet-stream"),
            some (f.filename.getD "uploaded_file")⟩) ∧
      (f.base64_data.getD "" = "" →
        build_metadata context = ⟨"en", [], none, none, none⟩)) := by
  constructor
  · intro context
    simp only [build_metadata]
    cases context.file_uploads with
    | nil => rfl
    | cons f rest =>
        simp only [metadata_for_uploads]
        by_cases hb : f.base64_data.getD "" ≠ ""
        · rw [if_pos hb]
        · rw [if_neg hb]
  · intro context f rest h
    constructor
    · intro b hb hbne
      simp only [build_metadata, h, metadata_for_uploads]
      have hg : f.base64_data.getD "" = b := by rw [hb]; rfl
      rw [hg, if_pos hbne]
    · intro hempty
      simp only [build_metadata, h, metadata_for_uploads]
      rw [hempty, if_neg (by simp)]

/-- Witness for c9_amended: a context with exactly one upload carrying a non
empty payload and no mime type embeds the payload, the default mime type and
the filename. -/
theorem c9_amended_witness :
    one_upload_ctx.file_uploads = ⟨some "QUJD", none, some "a.txt"⟩ :: [] ∧
    build_metadata one_upload_ctx =
      ⟨"en", [], some "QUJD", some "application/octet-stream", some "a.txt"⟩ :=
  ⟨rfl,
    (c9_amended.2 one_upload_ctx ⟨some "QUJD", none, some "a.txt"⟩ [] rfl).1
      "QUJD" rfl (by decide)⟩

/-! ## Claim C1 -/

/-- C1: a plan step whose agent name is absent from the registry does not
abort the loop: the invocation proceeds with the not found sentinel and
yields an AgentResponse with status error and error type config_error,
recorded in the ledger at the step id together with an error usage entry,
and execution continues with every later step of the plan still producing a
ledger entry. -/
theorem c1_missing_agent_config_error (registry : List AgentMetadata) (step : Step)
    (hmissing : ∀ a ∈ registry, a.name ≠ step.agent)
    (query : String) (context : Context) (hx : Bool)
    (oracle : Nat → AgentRequest → TransportResult) (fresh : Nat → String) :
    (∀ st : ExecState,
      exec_step query registry context hx oracle fresh st step =
        ⟨dinsert step.step_id
            ⟨fresh st.counter, step.agent, "error", none,
              some ⟨"config_error", "Agent endpoint/command not configured"⟩⟩
            st.step_outputs,
          st.used_agents ++ [⟨step.agent, step.intent, "error"⟩],
          st.counter + 1⟩) ∧
    (∀ (rest : List Step), ∀ s ∈ rest, ∃ r,
      dget s.step_id
        (execute_plan query ⟨step :: rest⟩ registry context hx oracle fresh).1 = some r) := by
  have hfind : find_agent_by_name step.agent registry =
      ⟨step.agent, "not_found", none, 0⟩ :=
    find_agent_not_found _ _ hmissing
  have hresp : ∀ st : ExecState,
      step_response query registry context hx oracle fresh st step =
        ⟨fresh st.counter, step.agent, "error", none,
          some ⟨"config_error", "Agent endpoint/command not configured"⟩⟩ := by
    intro st
    simp only [step_response, hfind, call_agent_not_found_sentinel]
  constructor
  · intro st
    have hc : ¬ (step.agent = "KnowledgeBaseBuilderAgent" ∧
        (step_response query registry context hx oracle fresh st step).status = "success" ∧
        step.intent = "create_task") := by
      intro hcc
      rw [hresp st] at hcc
      have h2 := hcc.2.1
      simp at h2
    rw [exec_step_eq_plain query registry context hx oracle fresh st step hc]
    simp only [post_step_state, hresp st, hfind]
  · intro rest s hs
    apply dget_some_of_mem
    simp only [execute_plan]
    exact foldl_step_ids_mem query registry context hx oracle fresh (step :: rest)
      ⟨[], [], 0⟩ s (List.mem_cons.mpr (Or.inr hs))

/-- Witness for c1_missing_agent_config_error: with an empty registry the
ghost step records a config_error response and an error usage entry. -/
theorem c1_witness :
    (∀ a ∈ ([] : List AgentMetadata), a.name ≠ ghost_step.agent) ∧
    exec_step "q" [] ctx0 true oracle_succ fresh0 ⟨[], [], 0⟩ ghost_step =
      ⟨dinsert ghost_step.step_id
          ⟨fresh0 0, ghost_step.agent, "error", none,
            some ⟨"config_error", "Agent endpoint/command not configured"⟩⟩ [],
        [] ++ [⟨ghost_step.agent, ghost_step.intent, "error"⟩], 0 + 1⟩ :=
  ⟨by simp,
    (c1_missing_agent_config_error [] ghost_step (by simp) "q" ctx0 true oracle_succ
      fresh0).1 ⟨[], [], 0⟩⟩

/-! ## Claim C6 -/

/-- C6: execution never short circuits on a step error: whatever each
invocation returns (error or success), every step of the plan gets a ledger
entry at its step id, and the usage log has at least one entry per plan
step. -/
theorem c6_no_short_circuit (query : String) (plan : Plan)
    (registry : List AgentMetadata) (context : Context) (hx : Bool)
    (oracle : Nat → AgentRequest → TransportResult) (fresh : Nat → String) :
    (∀ s ∈ plan.steps, ∃ r,
      dget s.step_id (execute_plan query plan registry context hx oracle fresh).1
        = some r) ∧
    plan.steps.length ≤
      (execute_plan query plan registry context hx oracle fresh).2.length := by
  constructor
  · intro s hs
    apply dget_some_of_mem
    simp only [execute_plan]
    exact foldl_step_ids_mem query registry context hx oracle fresh plan.steps
      ⟨[], [], 0⟩ s hs
  · have h := foldl_used_length query registry context hx oracle fresh plan.steps
      ⟨[], [], 0⟩
    simpa [execute_plan] using h

/-- Witness for c6_no_short_circuit: in a two step plan whose first step
fails (empty registry, so step 1 resolves to config_error), step 2 is still
executed and recorded. -/
theorem c6_witness :
    ((⟨2, "B", "j", "user_query"⟩ : Step) ∈ plan_two.steps) ∧
    (∃ r, dget 2 (execute_plan "q" plan_two [] ctx0 true oracle_succ fresh0).1 = some r) ∧
    (execute_plan "q" plan_two [] ctx0 true oracle_succ fresh0).2 =
      [⟨"A", "i", "error"⟩, ⟨"B", "j", "error"⟩] :=
  ⟨by decide,
    (c6_no_short_circuit "q" plan_two [] ctx0 true oracle_succ fresh0).1
      ⟨2, "B", "j", "user_query"⟩ (by decide),
    by rfl⟩

/-! ## Claim C10 -/

/-- C10: whenever the auto chain fires, the ledger already contains at least
the trigger step entry (it is non empty, so the zero for an empty ledger at
executor.py line 76 can never be taken), the synthetic id equals
max(existing keys) + 1 and is strictly greater than every key present at
that moment, and recording the synthetic entry appends to the ledger, never
overwriting an existing entry. -/
theorem c10_synthetic_id_fresh (query : String) (registry : List AgentMetadata)
    (context : Context) (hx : Bool) (oracle : Nat → AgentRequest → TransportResult)
    (fresh : Nat → String) (st : ExecState) (step : Step)
    (hagent : step.agent = "KnowledgeBaseBuilderAgent")
    (hsuccess :
      (step_response query registry context hx oracle fresh st step).status = "success")
    (hintent : step.intent = "create_task") :
    dinsert step.step_id (step_response query registry context hx oracle fresh st step)
        st.step_outputs ≠ [] ∧
    (∀ k ∈ dkeys (dinsert step.step_id
        (step_response query registry context hx oracle fresh st step) st.step_outputs),
      k < next_step_id (dinsert step.step_id
        (step_response query registry context hx oracle fresh st step) st.step_outputs)) ∧
    next_step_id (dinsert step.step_id
        (step_response query registry context hx oracle fresh st step) st.step_outputs) ∉
      dkeys (dinsert step.step_id
        (step_response query registry context hx oracle fresh st step) st.step_outputs) ∧
    (exec_step query registry context hx oracle fresh st step).step_outputs =
      dinsert step.step_id (step_response query registry context hx oracle fresh st step)
          st.step_outputs ++
        [(next_step_id (dinsert step.step_id
            (step_response query registry context hx oracle fresh st step) st.step_outputs),
          call_agent (find_agent_by_name "task_dependency_agent" registry)
            "task.resolve_dependencies" "" context (some [("trigger", "database_update")])
            hx (oracle (st.counter + 1)) (fresh (st.counter + 1)))] := by
  refine ⟨dinsert_ne_nil _ _ _, fun k hk => lt_next_step_id_of_mem _ k hk,
    next_step_id_not_mem _, ?_⟩
  rw [exec_step_eq_chain query registry context hx oracle fresh st step
    ⟨hagent, hsuccess, hintent⟩]
  rw [chain_extend_outputs]
  rfl

/-- Witness for c10_synthetic_id_fresh: the trigger step at an empty initial
ledger fires the chain and the synthetic entry is appended after the trigger
entry. -/
theorem c10_witness :
    (step_response "q" [kb_meta] ctx0 true oracle_succ fresh0 ⟨[], [], 0⟩ kb_step).status
      = "success" ∧
    (exec_step "q" [kb_meta] ctx0 true oracle_succ fresh0 ⟨[], [], 0⟩ kb_step).step_outputs =
      dinsert kb_step.step_id
          (step_response "q" [kb_meta] ctx0 true oracle_succ fresh0 ⟨[], [], 0⟩ kb_step) [] ++
        [(next_step_id (dinsert kb_step.step_id
            (step_response "q" [kb_meta] ctx0 true oracle_succ fresh0 ⟨[], [], 0⟩ kb_step) []),
          call_agent (find_agent_by_name "task_dependency_agent" [kb_meta])
            "task.resolve_dependencies" "" ctx0 (some [("trigger", "database_update")])
            true (oracle_succ 1) (fresh0 1))] :=
  ⟨by decide,
    (c10_synthetic_id_fresh "q" [kb_meta] ctx0 true oracle_succ fresh0 ⟨[], [], 0⟩ kb_step
      rfl (by decide) rfl).2.2.2⟩

/-! ## Claim C4 -/

theorem nodup_append_single {l : List Int} {a : Int} (h : l.Nodup) (ha : a ∉ l) :
    (l ++ [a]).Nodup := by
  apply List.Nodup.append h (List.nodup_singleton a)
  intro x hx hxa
  rw [List.mem_singleton] at hxa
  subst hxa
  exact ha hx

theorem post_step_keys (query : String) (registry : List AgentMetadata)
    (context : Context) (hx : Bool) (oracle : Nat → AgentRequest → TransportResult)
    (fresh : Nat → String) (st : ExecState) (step : Step)
    (h : step.step_id ∉ dkeys st.step_outputs) :
    dkeys (post_step_state query registry context hx oracle fresh st step).step_outputs =
      dkeys st.step_outputs ++ [step.step_id] := by
  simp only [post_step_state]
  exact dkeys_dinsert_not_mem _ _ _ h

theorem c4_aux (query : String) (registry : List AgentMetadata) (context : Context)
    (hx : Bool) (oracle : Nat → AgentRequest → TransportResult) (fresh : Nat → String) :
    ∀ (steps : List Step) (st : ExecState),
      (dkeys st.step_outputs).Nodup →
      (steps.map Step.step_id).Nodup →
      (∀ s ∈ steps, s.step_id ∉ dkeys st.step_outputs) →
      (∀ s ∈ steps.dropLast,
        ¬ (s.agent = "KnowledgeBaseBuilderAgent" ∧ s.intent = "create_task")) →
      (dkeys ((steps.foldl (exec_step query registry context hx oracle fresh)
            st).step_outputs)
          = dkeys st.step_outputs ++ steps.map Step.step_id ∨
        ∃ k, dkeys ((steps.foldl (exec_step query registry context hx oracle fresh)
              st).step_outputs)
            = (dkeys st.step_outputs ++ steps.map Step.step_id) ++ [k] ∧
          k ∉ dkeys st.step_outputs ++ steps.map Step.step_id) := by
  intro steps
  induction steps with
  | nil =>
      intro st h1 h2 h3 h4
      left
      simp
  | cons s ts ih =>
      intro st h1 h2 h3 h4
      have hsid : s.step_id ∉ dkeys st.step_outputs := h3 s (List.mem_cons_self s ts)
      have hpost := post_step_keys query registry context hx oracle fresh st s hsid
      cases ts with
      | nil =>
          simp only [List.foldl_cons, List.foldl_nil]
          by_cases hc : s.agent = "KnowledgeBaseBuilderAgent" ∧
              (step_response query registry context hx oracle fresh st s).status
                = "success" ∧
              s.intent = "create_task"
          · rw [exec_step_eq_chain query registry context hx oracle fresh st s hc,
              chain_extend_keys]
            right
            refine ⟨next_step_id
              (post_step_state query registry context hx oracle fresh st s).step_outputs,
              ?_, ?_⟩
            · rw [hpost]
              simp
            · have hnm := next_step_id_not_mem
                (post_step_state query registry context hx oracle fresh st s).step_outputs
              rw [hpost] at hnm
              simpa using hnm
          · rw [exec_step_eq_plain query registry context hx oracle fresh st s hc]
            left
            rw [hpost]
            simp
      | cons t ts2 =>
          have hs_drop : s ∈ (s :: t :: ts2).dropLast := by
            rw [List.dropLast_cons₂]
            exact List.mem_cons_self _ _
          have hs_not_trig := h4 s hs_drop
          have hc : ¬ (s.agent = "KnowledgeBaseBuilderAgent" ∧
              (step_response query registry context hx oracle fresh st s).status
                = "success" ∧
              s.intent = "create_task") :=
            fun hcc => hs_not_trig ⟨hcc.1, hcc.2.2⟩
          rw [List.foldl_cons,
            exec_step_eq_plain query registry context hx oracle fresh st s hc]
          have h1p : (dkeys (post_step_state query registry context hx oracle fresh
              st s).step_outputs).Nodup := by
            rw [hpost]
            exact nodup_append_single h1 hsid
          have h2p : ((t :: ts2).map Step.step_id).Nodup := (List.nodup_cons.mp h2).2
          have h3p : ∀ u ∈ t :: ts2, u.step_id ∉
              dkeys (post_step_state query registry context hx oracle fresh
                st s).step_outputs := by
            intro u hu
            rw [hpost]
            intro hmem
            rcases List.mem_append.mp hmem with hm | hm
            · exact h3 u (List.mem_cons_of_mem s hu) hm
            · rw [List.mem_singleton] at hm
              have hnot : s.step_id ∉ (t :: ts2).map Step.step_id :=
                (List.nodup_cons.mp h2).1
              exact hnot (hm ▸ List.mem_map_of_mem Step.step_id hu)
          have h4p : ∀ u ∈ (t :: ts2).dropLast,
              ¬ (u.agent = "KnowledgeBaseBuilderAgent" ∧ u.intent = "create_task") := by
            intro u hu
            apply h4 u
            rw [List.dropLast_cons₂]
            exact List.mem_cons_of_mem s hu
          rcases ih (post_step_state query registry context hx oracle fresh st s)
              h1p h2p h3p h4p with hkeq | ⟨k, hkeq, hknot⟩
          · left
            rw [hkeq, hpost]
            simp
          · right
            refine ⟨k, ?_, ?_⟩
            · rw [hkeq, hpost]
              simp
            · rw [hpost] at hknot
              simpa using hknot

/-- C4 counterexample: a plan with unique step ids 1 and 2 whose first step
fires the auto chain. The chain fires exactly once (three usage entries),
yet the final ledger has only two entries: the synthetic entry got id
2 = max(1) + 1 and was then overwritten by plan step 2, so the ledger size
is the plan length, not plan length + 1, and the synthetic id collided with
a plan step id. -/
theorem c4_counterexample :
    (execute_plan "q" plan_c4 [kb_meta, tda_meta0, b_meta] ctx0 true oracle_succ
        fresh0).2 =
      [⟨"KnowledgeBaseBuilderAgent", "create_task", "success"⟩,
        ⟨"task_dependency_agent", "task.resolve_dependencies", "success"⟩,
        ⟨"AgentB", "do_work", "success"⟩] ∧
    (execute_plan "q" plan_c4 [kb_meta, tda_meta0, b_meta] ctx0 true oracle_succ
        fresh0).1 =
      [(1, success_resp 0), (2, success_resp 2)] ∧
    plan_c4.steps.length = 2 :=
  ⟨rfl, rfl, rfl⟩

/-- C4 amended: for every plan whose step ids are unique and in which only
the final step can fire the auto chain, the ledger key set after execution
equals the plan step ids plus zero or one fresh synthetic id, the keys are
distinct, and the ledger size equals the plan length plus zero or one.
Without the restriction on where the trigger sits, a later plan step whose
id equals max(keys) + 1 overwrites the synthetic entry, as the
counterexample shows. -/
theorem c4_amended (query : String) (registry : List AgentMetadata) (context : Context)
    (hx : Bool) (oracle : Nat → AgentRequest → TransportResult) (fresh : Nat → String)
    (plan : Plan)
    (hnodup : (plan.steps.map Step.step_id).Nodup)
    (hlast : ∀ s ∈ plan.steps.dropLast,
      ¬ (s.agent = "KnowledgeBaseBuilderAgent" ∧ s.intent = "create_task")) :
    (dkeys (execute_plan query plan registry context hx oracle fresh).1
        = plan.steps.map Step.step_id ∨
      ∃ k, dkeys (execute_plan query plan registry context hx oracle fresh).1
          = plan.steps.map Step.step_id ++ [k] ∧
        k ∉ plan.steps.map Step.step_id) ∧
    (dkeys (execute_plan query plan registry context hx oracle fresh).1).Nodup ∧
    ((execute_plan query plan registry context hx oracle fresh).1.length
        = plan.steps.length ∨
      (execute_plan query plan registry context hx oracle fresh).1.length
        = plan.steps.length + 1) := by
  have base := c4_aux query registry context hx oracle fresh plan.steps ⟨[], [], 0⟩
    (by simp [dkeys]) hnodup (by intro s hs; simp [dkeys]) hlast
  have hproj : (execute_plan query plan registry context hx oracle fresh).1 =
      (plan.steps.foldl (exec_step query registry context hx oracle fresh)
        ⟨[], [], 0⟩).step_outputs := rfl
  rw [hproj]
  have base2 : dkeys ((plan.steps.foldl (exec_step query registry context hx oracle
        fresh) ⟨[], [], 0⟩).step_outputs) = plan.steps.map Step.step_id ∨
      ∃ k, dkeys ((plan.steps.foldl (exec_step query registry context hx oracle
          fresh) ⟨[], [], 0⟩).step_outputs) = plan.steps.map Step.step_id ++ [k] ∧
        k ∉ plan.steps.map Step.step_id := by
    rcases base with h | ⟨k, hk1, hk2⟩
    · left; simpa [dkeys] using h
    · right; exact ⟨k, by simpa [dkeys] using hk1, by simpa [dkeys] using hk2⟩
  refine ⟨base2, ?_, ?_⟩
  · rcases base2 with h | ⟨k, hk1, hk2⟩
    · rw [h]; exact hnodup
    · rw [hk1]; exact nodup_append_single hnodup hk2
  · have hlen : ∀ d : Ledger, d.length = (dkeys d).length := fun d => (length_dkeys d).symm
    rcases base2 with h | ⟨k, hk1, hk2⟩
    · left
      rw [hlen, h, List.length_map]
    · right
      rw [hlen, hk1]
      simp

/-- Witness for c4_amended: a one step plan whose single (hence final) step
fires the chain against a registry containing the dependency resolver; the
ledger ends with the plan length plus one entries. -/
theorem c4_amended_witness :
    (plan_c8.steps.map Step.step_id).Nodup ∧
    ((execute_plan "q" plan_c8 [kb_meta, tda_meta0] ctx0 true oracle_succ fresh0).1.length
        = plan_c8.steps.length ∨
      (execute_plan "q" plan_c8 [kb_meta, tda_meta0] ctx0 true oracle_succ fresh0).1.length
        = plan_c8.steps.length + 1) :=
  ⟨by decide,
    (c4_amended "q" [kb_meta, tda_meta0] ctx0 true oracle_succ fresh0 plan_c8
      (by decide) (by decide)).2.2⟩

/-! ## Claim C7 -/

theorem split_char_no_sep (sep : Char) : ∀ cs : List Char, sep ∉ cs →
    split_char sep cs = [cs] := by
  intro cs
  induction cs with
  | nil => intro _; rfl
  | cons c rest ih =>
      intro h
      have hc : ¬ (c = sep) := fun he => h (he ▸ List.mem_cons_self c rest)
      have hrest : sep ∉ rest := fun hm => h (List.mem_cons_of_mem c hm)
      simp only [split_char, ih hrest]
      rw [if_neg hc]

theorem split_char_append (sep : Char) (rest : List Char) : ∀ pre : List Char,
    sep ∉ pre → split_char sep (pre ++ sep :: rest) = pre :: split_char sep rest := by
  intro pre
  induction pre with
  | nil =>
      intro _
      simp [split_char]
  | cons c cs ih =>
      intro h
      have hc : ¬ (c = sep) := fun he => h (he ▸ List.mem_cons_self c cs)
      have hcs : sep ∉ cs := fun hm => h (List.mem_cons_of_mem c hm)
      simp only [List.cons_append, split_char, List.append_eq, ih hcs]
      rw [if_neg hc]

theorem starts_with_append (p rest : List Char) :
    starts_with_cs p (p ++ rest) = true := by
  induction p with
  | nil => rfl
  | cons c cs ih =>
      simp only [List.cons_append, starts_with_cs]
      simp [ih]

theorem resolve_input_step_shape (idCs : List Char) (user_query : String)
    (led : Ledger) (hcolon : ':' ∉ idCs) (hdot : '.' ∉ idCs) :
    resolve_input (String.mk ("step:".toList ++ idCs)) user_query led =
      match py_int_parse idCs with
      | some step_id =>
          match dget step_id led with
          | some prior =>
              match prior.output with
              | some o => o.result
              | none => user_query
          | none => user_query
      | none => user_query := by
  have hne : String.mk ("step:".toList ++ idCs) ≠ "user_query" := by
    intro he
    have h2 := congrArg String.toList he
    have h3 : (String.mk ("step:".toList ++ idCs)).toList =
        's' :: 't' :: 'e' :: 'p' :: ':' :: idCs := rfl
    have h4 : ("user_query" : String).toList =
        ['u', 's', 'e', 'r', '_', 'q', 'u', 'e', 'r', 'y'] := rfl
    rw [h3, h4] at h2
    injection h2 with h5 _
    exact absurd h5 (by decide)
  have hsw : py_startswith "step:" (String.mk ("step:".toList ++ idCs)) = true := by
    show starts_with_cs "step:".toList ("step:".toList ++ idCs) = true
    exact starts_with_append _ _
  have hsplit : split_char ':' (String.mk ("step:".toList ++ idCs)).toList =
      [['s', 't', 'e', 'p'], idCs] := by
    show split_char ':' (['s', 't', 'e', 'p'] ++ ':' :: idCs) = [['s', 't', 'e', 'p'], idCs]
    rw [split_char_append ':' idCs ['s', 't', 'e', 'p'] (by decide),
      split_char_no_sep ':' idCs hcolon]
  simp only [resolve_input]
  rw [if_neg hne, if_pos hsw, hsplit]
  rw [if_pos (by simp : ([['s', 't', 'e', 'p'], idCs] : List (List Char)).length ≥ 2)]
  have hget1 : (([['s', 't', 'e', 'p'], idCs] : List (List Char)).get? 1).getD [] =
      idCs := rfl
  rw [hget1, split_char_no_sep '.' idCs hdot]
  rfl

theorem resolve_input_step_dot_shape (idCs suffix : List Char) (user_query : String)
    (led : Ledger) (hcolon : ':' ∉ idCs) (hdot : '.' ∉ idCs) (hcs : ':' ∉ suffix) :
    resolve_input (String.mk ("step:".toList ++ (idCs ++ '.' :: suffix)))
        user_query led =
      match py_int_parse idCs with
      | some step_id =>
          match dget step_id led with
          | some prior =>
              match prior.output with
              | some o => o.result
              | none => user_query
          | none => user_query
      | none => user_query := by
  have hmem : ':' ∉ idCs ++ '.' :: suffix := by
    intro hm
    rcases List.mem_append.mp hm with hm | hm
    · exact hcolon hm
    · rcases List.mem_cons.mp hm with hm | hm
      · exact absurd hm (by decide)
      · exact hcs hm
  have hne : String.mk ("step:".toList ++ (idCs ++ '.' :: suffix)) ≠ "user_query" := by
    intro he
    have h2 := congrArg String.toList he
    have h3 : (String.mk ("step:".toList ++ (idCs ++ '.' :: suffix))).toList =
        's' :: 't' :: 'e' :: 'p' :: ':' :: (idCs ++ '.' :: suffix) := rfl
    have h4 : ("user_query" : String).toList =
        ['u', 's', 'e', 'r', '_', 'q', 'u', 'e', 'r', 'y'] := rfl
    rw [h3, h4] at h2
    injection h2 with h5 _
    exact absurd h5 (by decide)
  have hsw : py_startswith "step:"
      (String.mk ("step:".toList ++ (idCs ++ '.' :: suffix))) = true := by
    show starts_with_cs "step:".toList ("step:".toList ++ (idCs ++ '.' :: suffix)) = true
    exact starts_with_append _ _
  have hsplit : split_char ':'
      (String.mk ("step:".toList ++ (idCs ++ '.' :: suffix))).toList =
      [['s', 't', 'e', 'p'], idCs ++ '.' :: suffix] := by
    show split_char ':' (['s', 't', 'e', 'p'] ++ ':' :: (idCs ++ '.' :: suffix)) =
      [['s', 't', 'e', 'p'], idCs ++ '.' :: suffix]
    rw [split_char_append ':' (idCs ++ '.' :: suffix) ['s', 't', 'e', 'p'] (by decide),
      split_char_no_sep ':' (idCs ++ '.' :: suffix) hmem]
  simp only [resolve_input]
  rw [if_neg hne, if_pos hsw, hsplit]
  rw [if_pos (by simp :
    ([['s', 't', 'e', 'p'], idCs ++ '.' :: suffix] : List (List Char)).length ≥ 2)]
  have hget1 : (([['s', 't', 'e', 'p'], idCs ++ '.' :: suffix] :
      List (List Char)).get? 1).getD [] = idCs ++ '.' :: suffix := rfl
  rw [hget1, split_char_append '.' suffix idCs hdot]
  rfl

/-- C7: the resolver contract. The literal user_query returns the query
verbatim; a step reference whose leading id segment (the text between the
first colon and the first dot) parses as an integer present in the ledger
with a non null output returns the string form of that output result, with
or without a dotted field suffix (only the leading id is honored); every
other case, namely a source that does not start with the step marker, a
parse failure, an id absent from the ledger, or a response without output,
falls back to the original user query. The function is total, so it never
throws. -/
theorem c7_resolve_input_contract :
    (∀ (user_query : String) (led : Ledger),
      resolve_input "user_query" user_query led = user_query) ∧
    (∀ (idCs : List Char) (i : Int) (user_query : String) (led : Ledger)
        (r : AgentResponse) (o : OutputModel) (suffix : List Char),
      py_int_parse idCs = some i → ':' ∉ idCs → '.' ∉ idCs → ':' ∉ suffix →
      dget i led = some r → r.output = some o →
      resolve_input (String.mk ("step:".toList ++ idCs)) user_query led = o.result ∧
      resolve_input (String.mk ("step:".toList ++ (idCs ++ '.' :: suffix)))
        user_query led = o.result) ∧
    (∀ (input_source user_query : String) (led : Ledger),
      input_source ≠ "user_query" → py_startswith "step:" input_source = false →
      resolve_input input_source user_query led = user_query) ∧
    (∀ (idCs : List Char) (user_query : String) (led : Ledger),
      ':' ∉ idCs → '.' ∉ idCs →
      (py_int_parse idCs = none ∨
        (∃ i, py_int_parse idCs = some i ∧ dget i led = none) ∨
        (∃ i r, py_int_parse idCs = some i ∧ dget i led = some r ∧ r.output = none)) →
      resolve_input (String.mk ("step:".toList ++ idCs)) user_query led
        = user_query) := by
  refine ⟨?_, ?_, ?_, ?_⟩
  · intro q led
    simp [resolve_input]
  · intro idCs i q led r o suffix hparse hcolon hdot hcs hget hout
    constructor
    · rw [resolve_input_step_shape idCs q led hcolon hdot]
      simp only [hparse, hget, hout]
    · rw [resolve_input_step_dot_shape idCs suffix q led hcolon hdot hcs]
      simp only [hparse, hget, hout]
  · intro s q led hne hsw
    simp only [resolve_input]
    rw [if_neg hne, if_neg (by simp [hsw])]
  · intro idCs q led hcolon hdot hfall
    rw [resolve_input_step_shape idCs q led hcolon hdot]
    rcases hfall with hp | ⟨i, hp, hg⟩ | ⟨i, r, hp, hg, ho⟩
    · simp only [hp]
    · simp only [hp, hg]
    · simp only [hp, hg, ho]

/-- Witness for c7_resolve_input_contract: the spec example, a step with
input_source step:2 where step id 2 produced a success with output result
42; the resolved text is 42. -/
theorem c7_witness :
    py_int_parse ['2'] = some 2 ∧
    dget 2 ledger42 = some ⟨"x", "a", "success", some ⟨"42"⟩, none⟩ ∧
    resolve_input (String.mk ("step:".toList ++ ['2'])) "orig" ledger42 = "42" :=
  ⟨by decide, by decide,
    (c7_resolve_input_contract.2.1 ['2'] 2 "orig" ledger42
      ⟨"x", "a", "success", some ⟨"42"⟩, none⟩ ⟨"42"⟩ [] (by decide) (by decide)
      (by decide) (by decide) (by decide) rfl).1⟩

end SupervisorSpec
